import Mathlib

/-!
Verification development for the mysqft lead-capture service
(src/server.py and src/cron.py).

The embedding below translates the Python source into Lean:
pure request/report logic becomes Lean functions, the database becomes an
explicit state (lists of tenant and lead rows), and external failures
(connection loss, raised exceptions of a DB call, mail delivery failure)
become explicit outcome parameters.  Dates are modelled as integer day
ordinals, timestamps as integers/strings, so that date comparisons
(plan_expiry < today, created_at::date = CURRENT_DATE) are exact.

Two pieces of the repository are invoked by src/cron.py but their
definitions are not part of src/server.py (cron.py calls
load_companies(force=True) and send_email(to, body, expiry), while
src/server.py defines load_companies() and send_email(to, csv_file)):
these come from another iteration of the service that is not in src.
They are modelled from the spec and carry a doc comment saying so.
-/

namespace MySqft

/-- One tenant row, in the column order of the companies table as selected by
load_companies (server.py lines 83-91) and unpacked by submit
(server.py lines 264-268): id, company_name, email, discord_webhook,
webhook_url, webhook_secret, plan, plan_expiry, lead_fields.
`isActive` models the is_active column; `planExpiry` is a day ordinal.
A missing URL/secret is modelled as the empty string (Python falsy). -/
structure Company where
  isActive : Bool
  id : Nat
  name : String
  email : String
  discord : String
  webhookUrl : String
  webhookSecret : String
  plan : String
  planExpiry : Int
  leadFields : List String
deriving Repr, DecidableEq

/-- One row of company_leads: the owning company id, the stored JSON field
map (insertion ordered, as a Python dict), the created_at timestamp as it
is rendered in the CSV export, and the calendar date of created_at
(`created_at::date`) as a day ordinal. -/
structure LeadRow where
  companyId : Nat
  fields : List (String × String)
  createdAt : String
  createdDate : Int
deriving Repr, DecidableEq

/-- The database state visible to the batch job: the companies table and the
company_leads table. -/
structure DB where
  companies : List Company
  leads : List LeadRow
deriving Repr, DecidableEq

/-- Single-character split, the model of Python's str.split) with a
one-character separator: "a.b".split(".") = ["a","b"], "".split(".") = [""].
Used for host.split(":") and host.split(".") in resolve_subdomain. -/
def splitCharAux (c : Char) : List Char → List Char → List (List Char)
  | [], acc => [acc.reverse]
  | x :: xs, acc =>
    if x = c then acc.reverse :: splitCharAux c xs []
    else splitCharAux c xs (x :: acc)

/-- Splits a string at every occurrence of the character `c`. -/
def splitChar (c : Char) (s : String) : List String :=
  (splitCharAux c s.data []).map (fun l => String.mk l)

/-- The host with any ":port" suffix removed: request.host.split(":")[0]
(server.py line 111). -/
def stripPort (host : String) : String := (splitChar ':' host).headD ""

/-- Tenant-key derivation from the Host header, translated from
resolve_subdomain (server.py lines 110-120): strip the port; the exact hosts
"mysqft.in" and "www.mysqft.in" map to the root key "mysqft"; a host with
more than two dot-separated labels maps to its leftmost label; anything else
maps to "mysqft".  Note the source performs no check that the host ends in
".mysqft.in". -/
def resolve_subdomain (host : String) : String :=
  if stripPort host = "mysqft.in" ∨ stripPort host = "www.mysqft.in" then
    "mysqft"
  else if 2 < (splitChar '.' (stripPort host)).length then
    (splitChar '.' (stripPort host)).headD ""
  else "mysqft"

/-- The accepted-field filter of submit (server.py lines 273-277):
iterate the tenant's lead_fields in order and keep each field whose form
value is present and non-empty (Python truthiness of request.form.get).
`form` maps a field name to its submitted value, none when absent. -/
def formFilter (form : String → Option String) : List String → List (String × String)
  | [] => []
  | f :: fs =>
    match form f with
    | some v => if v = "" then formFilter form fs else (f, v) :: formFilter form fs
    | none => formFilter form fs

/-- Lower-case hexadecimal digit, for the \uXXXX escapes of json.dumps. -/
def hexDigit (n : Nat) : Char :=
  if n < 10 then Char.ofNat (48 + n) else Char.ofNat (87 + n)

/-- Four lower-case hex digits of n mod 2^16. -/
def uhex4 (n : Nat) : String :=
  String.mk [hexDigit (n / 4096 % 16), hexDigit (n / 256 % 16),
             hexDigit (n / 16 % 16), hexDigit (n % 16)]

/-- Escape of one character exactly as json.dumps (default ensure_ascii=True)
renders it inside a JSON string: the two-character escapes for quote,
backslash, \n, \r, \t, \b, \f; printable ASCII (0x20-0x7E) kept verbatim;
every other character as \uXXXX, with a surrogate pair above 0xFFFF. -/
def escapeChar (c : Char) : String :=
  if c = '"' then "\\\""
  else if c = '\\' then "\\\\"
  else if c = '\n' then "\\n"
  else if c = '\r' then "\\r"
  else if c = '\t' then "\\t"
  else if c.toNat = 8 then "\\b"
  else if c.toNat = 12 then "\\f"
  else if 32 ≤ c.toNat ∧ c.toNat ≤ 126 then String.mk [c]
  else if c.toNat ≤ 65535 then "\\u" ++ uhex4 c.toNat
  else
    let v := c.toNat - 65536
    "\\u" ++ uhex4 (55296 + v / 1024) ++ "\\u" ++ uhex4 (56320 + v % 1024)

/-- JSON string-body escaping of json.dumps. -/
def jsonEscape (s : String) : String := String.join (s.data.map escapeChar)

/-- A JSON string literal. -/
def jsonStr (s : String) : String := "\"" ++ jsonEscape s ++ "\""

/-- A JSON object whose values are strings, with json.dumps' default
separators (", " between items, ": " after a key), keys in insertion
order as a Python dict serializes them. -/
def jsonObj (pairs : List (String × String)) : String :=
  "\x7b" ++ String.intercalate ", "
    (pairs.map (fun p => jsonStr p.1 ++ ": " ++ jsonStr p.2)) ++ "\x7d"

/-- json.dumps of the webhook payload built by submit (server.py
lines 290-294): the object with keys event, company, lead in that order. -/
def jsonEnvelope (company : String) (lead : List (String × String)) : String :=
  "\x7b" ++ jsonStr "event" ++ ": " ++ jsonStr "lead.created" ++ ", "
    ++ jsonStr "company" ++ ": " ++ jsonStr company ++ ", "
    ++ jsonStr "lead" ++ ": " ++ jsonObj lead ++ "\x7d"

/-- The outgoing signed webhook POST, as assembled by send_webhook
(server.py lines 170-191): raw body bytes, the X-Timestamp header value and
the X-Signature header value. -/
structure WebhookReq where
  url : String
  body : String
  timestamp : String
  signature : String
deriving Repr, DecidableEq

/-- send_webhook (server.py lines 170-191).  `hm key msg` abstracts
hmac.new(key, msg, sha256).hexdigest(); the claims proved about this
function hold for every choice of `hm`, in particular for HMAC-SHA256,
because they only relate the signer's inputs to the verifier's inputs.
An empty url models a falsy webhook_url, for which the dispatch is
skipped (line 171-172). `now` is int(time.time()). -/
def sendWebhook (hm : String → String → String) (url secret company : String)
    (lead : List (String × String)) (now : Nat) : Option WebhookReq :=
  if url = "" then none
  else
    let body := jsonEnvelope company lead
    let ts := toString now
    some { url := url, body := body, timestamp := ts, signature := hm secret (ts ++ body) }

/-- The observable outcome of one submit request (server.py lines 254-300):
HTTP status, JSON message, the lead row inserted by save_lead (if any),
the Discord message posted (if any) and the signed webhook issued (if any). -/
structure SubmitOut where
  status : Nat
  message : String
  saved : Option (Nat × List (String × String))
  discordMsg : Option String
  webhook : Option WebhookReq
deriving Repr, DecidableEq

/-- submit (server.py lines 254-300).  `cache` is COMPANY_CACHE as an
association list (subdomain to company row), `form` is request.form.get,
`today` is date.today() as a day ordinal, `saveOk` is whether save_lead's
connection and INSERT succeed (server.py lines 125-144: on failure it
returns False and submit answers 500), `hm`/`now` feed send_webhook. -/
def submit (cache : List (String × Company)) (host : String)
    (form : String → Option String) (today : Int) (saveOk : Bool)
    (hm : String → String → String) (now : Nat) : SubmitOut :=
  match cache.lookup (resolve_subdomain host) with
  | none =>
    { status := 403, message := "Company not found",
      saved := none, discordMsg := none, webhook := none }
  | some c =>
    if c.planExpiry < today then
      { status := 403, message := "Plan expired",
        saved := none, discordMsg := none, webhook := none }
    else
      let leadData := formFilter form c.leadFields
      if leadData = [] then
        { status := 400, message := "No valid data",
          saved := none, discordMsg := none, webhook := none }
      else if saveOk = false then
        { status := 500, message := "Failed to save lead",
          saved := none, discordMsg := none, webhook := none }
      else
        { status := 200, message := "Lead stored",
          saved := some (c.id, leadData),
          discordMsg :=
            if (c.plan = "discord" ∨ c.plan = "all") ∧ c.discord ≠ "" then
              some ("📩 New Lead for " ++ c.name ++ "\n" ++
                String.intercalate "\n"
                  (leadData.map (fun p => "**" ++ p.1 ++ "**: " ++ p.2)))
            else none,
          webhook :=
            if c.plan = "webhook" ∨ c.plan = "all" then
              sendWebhook hm c.webhookUrl c.webhookSecret c.name leadData now
            else none }

/-- Where a refresh of the company cache can fail, following load_companies
(server.py lines 75-105): the connection attempt (get_db returns None,
line 77-79), cur.execute of the SELECT (line 83, raised before
COMPANY_CACHE.clear() on line 93), cur.fetchall (line 95, raised after the
cache was already cleared), or full success with the fetched rows. -/
inductive LoadOutcome where
  | connFail
  | execFail
  | fetchFail
  | ok (rows : List (String × Company))
deriving Repr, DecidableEq

/-- Assignment COMPANY_CACHE[k] = v on an association list: replace the
existing entry in place, else append (Python dict semantics). -/
def insertAssoc (m : List (String × Company)) (k : String) (v : Company) :
    List (String × Company) :=
  if (m.lookup k).isSome then m.map (fun p => if p.1 = k then (k, v) else p)
  else m ++ [(k, v)]

/-- load_companies (server.py lines 75-105) as a function of the previous
COMPANY_CACHE and the failure point.  On connection failure the function
returns early; an exception from cur.execute is caught before the cache is
touched; an exception from cur.fetchall is caught too, but only after
COMPANY_CACHE.clear() already ran, so the cache is left empty; on success
the cleared cache is filled row by row.  No modelled outcome raises to the
caller (the except block logs and swallows). -/
def load_companies (cache : List (String × Company)) (o : LoadOutcome) :
    List (String × Company) :=
  match o with
  | .connFail => cache
  | .execFail => cache
  | .fetchFail => []
  | .ok rows => rows.foldl (fun acc kv => insertAssoc acc kv.1 kv.2) []

/-- The tenant-directory snapshot of spec section 4.1: the cache plus its
last-refreshed timestamp (seconds). -/
structure Directory where
  cache : List (String × Company)
  lastRefresh : Int
deriving Repr, DecidableEq

/-- Outcome of the persistence fetch issued by a refresh. -/
inductive FetchResult where
  | fail
  | ok (rows : List (String × Company))
deriving Repr, DecidableEq

/-- The configured refresh TTL of spec section 4.1 (default 300 seconds). -/
def DEFAULT_TTL : Int := 300

/-- Modelled from the spec: the load_companies(force) variant that cron.py
line 14 invokes (load_companies(force=True)) is not part of src/server.py,
whose load_companies takes no argument; spec section 4.1 describes it:
if force is false and the snapshot is younger than the TTL the call is a
no-op and no fetch is issued; otherwise all active tenants are fetched and
the snapshot is replaced wholesale, the timestamp updated; on fetch failure
the previous snapshot is retained.  The returned Bool says whether a fetch
was issued. -/
def refresh (d : Directory) (force : Bool) (now ttl : Int)
    (fetch : FetchResult) : Directory × Bool :=
  if force = false ∧ now - d.lastRefresh < ttl then (d, false)
  else
    match fetch with
    | .fail => (d, true)
    | .ok rows => ({ cache := rows, lastRefresh := now }, true)

/-- The fixed body text of the daily report mail (server.py line 155). -/
def reportBodyBase : String := "Attached is today's lead report."

/-- The warning line appended when the plan is about to expire
(spec section 4.2). -/
def expiryWarning : String := "\nYour plan expires soon."

/-- Modelled from the spec: the send_email(to, body, expiry) variant that
cron.py line 50 invokes with a third expiry argument is not part of
src/server.py, whose send_email takes (to_email, csv_file) and has a fixed
body; spec section 4.2 describes the expiry-warning augmentation: when
days-until-expiry `d = expiry - today` (calendar days) satisfies
0 <= d < 3, a warning line is appended to the outgoing body, else the body
is unchanged.  Per spec section 4.2 delivery failure is logged and
swallowed, as in src/server.py's own send_email (lines 149-161). -/
def sendEmailBody (base : String) (daysLeft : Int) : String :=
  if 0 ≤ daysLeft ∧ daysLeft < 3 then base ++ expiryWarning else base

/-- Code-point comparison of character lists: lexicographic less-or-equal,
matching how Python compares str values in sorted(). -/
def leChars : List Char → List Char → Bool
  | [], _ => true
  | _ :: _, [] => false
  | a :: as, b :: bs =>
    if a.toNat < b.toNat then true
    else if b.toNat < a.toNat then false
    else leChars as bs

/-- Lexicographic less-or-equal on strings by code points. -/
def strLe (a b : String) : Bool := leChars a.data b.data

/-- Insert into a sorted list, keeping it sorted (ascending by strLe). -/
def insertSorted (x : String) : List String → List String
  | [] => [x]
  | y :: ys => if strLe x y then x :: y :: ys else y :: insertSorted x ys

/-- Ascending sort of a list of strings; on a duplicate-free list this is
the unique strictly ascending enumeration, i.e. Python's sorted() of the
corresponding set. -/
def sortStrings : List String → List String
  | [] => []
  | x :: xs => insertSorted x (sortStrings xs)

/-- The union of the field keys across a list of fetched lead rows, one
occurrence each: the set that daily_report accumulates with
headers.update(data.keys()) (server.py lines 222-224) and cron.py builds
with a set comprehension (line 40).  The list order of this union is not
significant; the two batch jobs enumerate it differently. -/
def keysUnion (rows : List LeadRow) : List String :=
  (rows.flatMap (fun r => r.fields.map Prod.fst)).dedup

/-- data.get(h, "") on a stored lead's field map. -/
def lookupField (fs : List (String × String)) (h : String) : String :=
  (fs.lookup h).getD ""

/-- The CSV export as structured rows (csv.writer's quoting is injective, so
equality of this structure is equality of the file content): the header row
is the given column order plus a trailing created_at, and each lead yields
one row with data.get(h, "") per column plus its timestamp
(server.py lines 226-231, cron.py lines 41-46). -/
def exportFor (order : List String) (rows : List LeadRow) : List (List String) :=
  (order ++ ["created_at"]) ::
    rows.map (fun r => order.map (lookupField r.fields) ++ [r.createdAt])

/-- The leads the batch job fetches for one company: company_id matches and
created_at::date = CURRENT_DATE (server.py lines 211-216, cron.py 30-35). -/
def tenantRows (leads : List LeadRow) (cid : Nat) (today : Int) : List LeadRow :=
  leads.filter (fun l => l.companyId == cid && l.createdDate == today)

/-- The DELETE of the same rows (server.py lines 236-240, cron.py 52-56). -/
def removeTenantRows (leads : List LeadRow) (cid : Nat) (today : Int) :
    List LeadRow :=
  leads.filter (fun l => !(l.companyId == cid && l.createdDate == today))

/-- The companies a batch run iterates: is_active and
plan_expiry >= CURRENT_DATE (server.py lines 203-208, cron.py 21-27). -/
def activeCompanies (db : DB) (today : Int) : List Company :=
  db.companies.filter (fun c => c.isActive && decide (today ≤ c.planExpiry))

/-- Observable side effects of a batch run, in program order: an email
attempt for a tenant (recipient and whether the delivery succeeded; a
failed delivery is swallowed by send_email and influences nothing), and a
committed DELETE of a tenant's rows for the day. -/
inductive Ev where
  | email (cid : Nat) (recipient : String) (ok : Bool)
  | delete (cid : Nat)
deriving Repr, DecidableEq

/-- The company id an event concerns. -/
def evCid : Ev → Nat
  | .email cid _ _ => cid
  | .delete cid => cid

/-- The ids whose rows were delete-committed, in commit order. -/
def deletesOf (evs : List Ev) : List Nat :=
  evs.filterMap (fun e => match e with | .delete cid => some cid | _ => none)

/-- State threaded through a batch run: the current company_leads table,
the per-tenant exports produced so far (tenant id with CSV content), the
side-effect trace, and whether an exception escaped the per-tenant body
(daily_report catches it after the loop and returns, server.py lines
244-246; run_daily_report has no except and propagates it, cron.py
lines 19-61 — either way no further tenant is processed). -/
structure BatchState where
  leads : List LeadRow
  exports : List (Nat × List (List String))
  events : List Ev
  aborted : Bool
deriving Repr, DecidableEq

/-- The per-tenant body shared verbatim by daily_report (server.py lines
210-242) and run_daily_report (cron.py lines 29-57), parameterised by
`orderOf`, the column enumeration applied to the fetched rows — the single
point where the two sources differ (list(set) versus sorted(set)).
Fetch today's rows; if none, skip the tenant entirely.  Else build the CSV,
attempt the email when the plan is email or all (failures are swallowed
inside send_email, so `emailOk` only shows up in the trace), then DELETE
the rows and commit.  `deleteOk cid = false` models the DELETE (or its
commit) raising: the export and any email attempt already happened, the
rows stay, and the exception aborts the loop. -/
def batchStep (orderOf : List LeadRow → List String)
    (emailOk deleteOk : Nat → Bool) (today : Int) (c : Company)
    (s : BatchState) : BatchState :=
  let rows := tenantRows s.leads c.id today
  if rows = [] then s
  else
    let content := exportFor (orderOf rows) rows
    let evs :=
      if c.plan = "email" ∨ c.plan = "all" then
        [Ev.email c.id c.email (emailOk c.id)]
      else []
    if deleteOk c.id then
      { leads := removeTenantRows s.leads c.id today,
        exports := s.exports ++ [(c.id, content)],
        events := s.events ++ evs ++ [Ev.delete c.id],
        aborted := false }
    else
      { leads := s.leads,
        exports := s.exports ++ [(c.id, content)],
        events := s.events ++ evs,
        aborted := true }

/-- The loop over the selected companies; an exception raised in one
tenant's body ends the loop (server.py's try wraps the whole loop,
cron.py has no handler at all). -/
def batchLoop (orderOf : List LeadRow → List String)
    (emailOk deleteOk : Nat → Bool) (today : Int) :
    List Company → BatchState → BatchState
  | [], s => s
  | c :: cs, s =>
    if (batchStep orderOf emailOk deleteOk today c s).aborted then
      batchStep orderOf emailOk deleteOk today c s
    else
      batchLoop orderOf emailOk deleteOk today cs
        (batchStep orderOf emailOk deleteOk today c s)

/-- The starting state of a batch run over a database. -/
def initState (db : DB) : BatchState :=
  { leads := db.leads, exports := [], events := [], aborted := false }

/-- daily_report (server.py lines 196-249).  `so` enumerates a duplicate-free
key set in the order CPython's list(set)/iteration yields it — an order the
language leaves unspecified (hash-randomised), hence a parameter; a valid
instantiation permutes its input.  get_db failure (lines 197-199) makes the
whole run a no-op and is not modelled. -/
def dailyReport (so : List String → List String) (emailOk deleteOk : Nat → Bool)
    (db : DB) (today : Int) : BatchState :=
  batchLoop (fun rows => so (keysUnion rows)) emailOk deleteOk today
    (activeCompanies db today) (initState db)

/-- run_daily_report (cron.py lines 13-61): identical per-tenant body but
the export columns are sorted (cron.py line 40).  The initial
load_companies(force=True) call (line 14) only refreshes the directory
snapshot — see `refresh` — and reads nothing the report uses, so it does
not appear in the run's outputs; its delete failure propagates to the
caller instead of being caught (`aborted` then means "raised"). -/
def runDailyReport (emailOk deleteOk : Nat → Bool) (db : DB) (today : Int) :
    BatchState :=
  batchLoop (fun rows => sortStrings (keysUnion rows)) emailOk deleteOk today
    (activeCompanies db today) (initState db)

/-- A concrete tenant used by witnesses: plan none, two accepted fields. -/
def coW : Company :=
  { isActive := true, id := 7, name := "Acme", email := "ops@acme.example",
    discord := "", webhookUrl := "", webhookSecret := "", plan := "none",
    planExpiry := 12, leadFields := ["name", "phone"] }

/-- A concrete tenant whose export exercises two field keys. -/
def coE : Company :=
  { isActive := true, id := 1, name := "Expo", email := "e@x.example",
    discord := "", webhookUrl := "", webhookSecret := "", plan := "none",
    planExpiry := 9, leadFields := ["x", "y"] }

/-- A database with one tenant whose single lead stores keys y then x. -/
def dbE : DB :=
  { companies := [coE],
    leads := [{ companyId := 1, fields := [("y", "1"), ("x", "2")],
                createdAt := "t1", createdDate := 5 }] }

/-- First tenant of the failure-isolation scenario: no email obligation. -/
def coF1 : Company :=
  { isActive := true, id := 1, name := "One", email := "",
    discord := "", webhookUrl := "", webhookSecret := "", plan := "none",
    planExpiry := 9, leadFields := ["a"] }

/-- Second tenant of the failure-isolation scenario: email plan, has a lead. -/
def coF2 : Company :=
  { isActive := true, id := 2, name := "Two", email := "two@x.example",
    discord := "", webhookUrl := "", webhookSecret := "", plan := "email",
    planExpiry := 9, leadFields := ["a"] }

/-- Two tenants, each with one lead dated day 5. -/
def dbF : DB :=
  { companies := [coF1, coF2],
    leads := [{ companyId := 1, fields := [("a", "1")], createdAt := "t1",
                createdDate := 5 },
              { companyId := 2, fields := [("a", "2")], createdAt := "t2",
                createdDate := 5 }] }

/-- Unfolding: an absent form field is dropped. -/
theorem formFilter_cons_none (form : String → Option String) (f : String)
    (fs : List String) (h : form f = none) :
    formFilter form (f :: fs) = formFilter form fs := by
  simp [formFilter, h]

/-- Unfolding: an empty form value is dropped. -/
theorem formFilter_cons_empty (form : String → Option String) (f : String)
    (fs : List String) (h : form f = some "") :
    formFilter form (f :: fs) = formFilter form fs := by
  simp [formFilter, h]

/-- Unfolding: a present non-empty form value is kept. -/
theorem formFilter_cons_some (form : String → Option String) (f v : String)
    (fs : List String) (h : form f = some v) (hv : v ≠ "") :
    formFilter form (f :: fs) = (f, v) :: formFilter form fs := by
  simp [formFilter, h, hv]

/-- Membership in the accepted-field filter: a pair (k, v) is retained
exactly when k is one of the tenant's configured fields and the form
supplied the non-empty value v for it. -/
theorem formFilter_mem (form : String → Option String) (fs : List String)
    (k v : String) :
    (k, v) ∈ formFilter form fs ↔ (k ∈ fs ∧ form k = some v ∧ v ≠ "") := by
  induction fs with
  | nil => simp [formFilter]
  | cons f fs ih =>
    have hsplit :
        (k ∈ f :: fs ∧ form k = some v ∧ v ≠ "") ↔
          ((k = f ∧ form k = some v ∧ v ≠ "") ∨
            (k ∈ fs ∧ form k = some v ∧ v ≠ "")) := by
      rw [List.mem_cons]
      tauto
    cases hf : form f with
    | none =>
      rw [formFilter_cons_none form f fs hf, ih, hsplit]
      constructor
      · exact Or.inr
      · rintro (⟨hk, hv, hne⟩ | h)
        · subst hk; rw [hf] at hv; cases hv
        · exact h
    | some w =>
      by_cases hw : w = ""
      · subst hw
        rw [formFilter_cons_empty form f fs hf, ih, hsplit]
        constructor
        · exact Or.inr
        · rintro (⟨hk, hv, hne⟩ | h)
          · subst hk; rw [hf] at hv
            exact absurd (Option.some.inj hv).symm hne
          · exact h
      · rw [formFilter_cons_some form f w fs hf hw, List.mem_cons, ih, hsplit,
          Prod.mk.injEq]
        constructor
        · rintro (⟨hk, hv⟩ | h)
          · subst hk; subst hv
            exact Or.inl ⟨rfl, hf, hw⟩
          · exact Or.inr h
        · rintro (⟨hk, hv, hne⟩ | h)
          · subst hk; rw [hf] at hv
            exact Or.inl ⟨rfl, (Option.some.inj hv).symm⟩
          · exact Or.inr h

/-- The filter is non-empty as soon as one configured field carries a
non-empty value. -/
theorem formFilter_ne_nil (form : String → Option String) (fs : List String)
    (h : ∃ f ∈ fs, ∃ v, form f = some v ∧ v ≠ "") :
    formFilter form fs ≠ [] := by
  obtain ⟨f, hf, v, hv, hne⟩ := h
  have hm : (f, v) ∈ formFilter form fs :=
    (formFilter_mem form fs f v).mpr ⟨hf, hv, hne⟩
  intro hnil
  rw [hnil] at hm
  cases hm

/-- C1 (confirmed): for every submission whose host resolves to a tenant in
the directory snapshot, whose tenant expiry is not before today, and whose
form supplies a non-empty value for at least one configured field, submit
persists exactly one lead row — whose fields are exactly the accepted
non-empty ones — and returns HTTP 200 with the stored-confirmation message
"Lead stored" (server.py lines 254-300, save_lead lines 125-144).
`saveOk = true` states that save_lead's connection and INSERT succeed, the
persistence-layer precondition under which the spec's sentence speaks. -/
theorem submit_success (cache : List (String × Company)) (host : String)
    (form : String → Option String) (today : Int)
    (hm : String → String → String) (now : Nat) (c : Company)
    (hc : cache.lookup (resolve_subdomain host) = some c)
    (hexp : today ≤ c.planExpiry)
    (hfield : ∃ f ∈ c.leadFields, ∃ v, form f = some v ∧ v ≠ "") :
    (submit cache host form today true hm now).status = 200 ∧
    (submit cache host form today true hm now).message = "Lead stored" ∧
    ∃ d, (submit cache host form today true hm now).saved = some (c.id, d) ∧
      ∀ k v, (k, v) ∈ d ↔ (k ∈ c.leadFields ∧ form k = some v ∧ v ≠ "") := by
  have hnl := formFilter_ne_nil form c.leadFields hfield
  have hlt : ¬ c.planExpiry < today := not_lt.mpr hexp
  simp only [submit, hc, if_neg hlt, if_neg hnl]
  refine ⟨by simp, by simp, formFilter form c.leadFields, by simp, ?_⟩
  intro k v
  exact formFilter_mem form c.leadFields k v

/-- Witness for C1 at a concrete tenant, host and form. -/
theorem submit_success_witness :
    (submit [("acme", coW)] "acme.mysqft.in"
        (fun f => if f = "name" then some "Bob" else none) 3 true
        (fun _ m => m) 0).status = 200 ∧
    (submit [("acme", coW)] "acme.mysqft.in"
        (fun f => if f = "name" then some "Bob" else none) 3 true
        (fun _ m => m) 0).message = "Lead stored" ∧
    ∃ d, (submit [("acme", coW)] "acme.mysqft.in"
        (fun f => if f = "name" then some "Bob" else none) 3 true
        (fun _ m => m) 0).saved = some (coW.id, d) ∧
      ∀ k v, (k, v) ∈ d ↔
        (k ∈ coW.leadFields ∧
          (if k = "name" then some "Bob" else none) = some v ∧ v ≠ "") :=
  submit_success [("acme", coW)] "acme.mysqft.in"
    (fun f => if f = "name" then some "Bob" else none) 3
    (fun _ m => m) 0 coW (by decide) (by decide)
    ⟨"name", by decide, "Bob", by decide, by decide⟩

/-- C2 counterexample: with a non-empty prior snapshot, a failure of
cur.fetchall — one of the fetch failures the claim quantifies over — leaves
the snapshot empty rather than retaining it, because load_companies runs
COMPANY_CACHE.clear() before consuming the result set (server.py lines
93-95, exception caught at 101-102). -/
theorem load_companies_fetchFail_cex :
    load_companies [("acme", coW)] LoadOutcome.fetchFail = [] ∧
    load_companies [("acme", coW)] LoadOutcome.fetchFail ≠ [("acme", coW)] := by
  decide

/-- C2 (corrected): on a connection failure or a failure raised by
cur.execute, the previous snapshot is retained unchanged and nothing is
raised to the caller; but on a failure raised when fetching the result rows
(after the query executed) the snapshot is left empty — the previous
snapshot is not retained in that case.  In every modelled outcome the
function returns normally (the except block logs and swallows). -/
theorem load_companies_failure_behavior (cache : List (String × Company)) :
    load_companies cache LoadOutcome.connFail = cache ∧
    load_companies cache LoadOutcome.execFail = cache ∧
    load_companies cache LoadOutcome.fetchFail = [] :=
  ⟨rfl, rfl, rfl⟩

/-- C4 counterexample: a multi-label host under a foreign domain resolves to
its leftmost label, not to the root tenant key — resolve_subdomain performs
no check that the host ends in ".mysqft.in" (server.py lines 110-120). -/
theorem resolve_subdomain_foreign_cex :
    resolve_subdomain "evil.attacker.com" = "evil" ∧
    ("evil" : String) ≠ "mysqft" := by decide

/-- C4 (corrected): after stripping any port, the derived tenant key is the
root key "mysqft" when the host equals the bare domain or its www variant,
or when it has at most two dot-separated labels; for every other host —
three or more labels, under any domain whatsoever — it is the leftmost
label.  The claim's foreign-domain fallback to the root key does not exist
in the code. -/
theorem resolve_subdomain_characterization (host : String) :
    (stripPort host = "mysqft.in" ∨ stripPort host = "www.mysqft.in" →
      resolve_subdomain host = "mysqft") ∧
    ((splitChar '.' (stripPort host)).length ≤ 2 →
      resolve_subdomain host = "mysqft") ∧
    (stripPort host ≠ "mysqft.in" → stripPort host ≠ "www.mysqft.in" →
      2 < (splitChar '.' (stripPort host)).length →
      resolve_subdomain host = (splitChar '.' (stripPort host)).headD "") := by
  unfold resolve_subdomain
  refine ⟨?_, ?_, ?_⟩
  · intro h
    rw [if_pos h]
  · intro hlen
    by_cases h : stripPort host = "mysqft.in" ∨ stripPort host = "www.mysqft.in"
    · rw [if_pos h]
    · rw [if_neg h, if_neg (by omega)]
  · intro h1 h2 hlen
    rw [if_neg (by tauto), if_pos hlen]

/-- Witness for C4's corrected statement: a three-label tenant host with a
port resolves to its leftmost label. -/
theorem resolve_subdomain_characterization_witness :
    stripPort "a.b.mysqft.in:443" ≠ "mysqft.in" ∧
    stripPort "a.b.mysqft.in:443" ≠ "www.mysqft.in" ∧
    2 < (splitChar '.' (stripPort "a.b.mysqft.in:443")).length ∧
    resolve_subdomain "a.b.mysqft.in:443" = "a" := by
  have h := (resolve_subdomain_characterization "a.b.mysqft.in:443").2.2
    (by decide) (by decide) (by decide)
  exact ⟨by decide, by decide, by decide, h.trans (by decide)⟩

/-- C6 (confirmed, against the spec-modelled refresh): when the snapshot is
younger than the TTL and force is false, refresh is a no-op — the snapshot
and its timestamp are unchanged and no fetch is issued; when force is true
or the snapshot is at least TTL old, a fetch is issued and, when it
returns rows, the snapshot is replaced wholesale and restamped.  The
configured default TTL is 300 seconds. -/
theorem refresh_ttl_spec (d : Directory) (force : Bool) (now ttl : Int)
    (fetch : FetchResult) :
    DEFAULT_TTL = 300 ∧
    (force = false → now - d.lastRefresh < ttl →
      refresh d force now ttl fetch = (d, false)) ∧
    (force = true ∨ ttl ≤ now - d.lastRefresh →
      ∀ rows, fetch = FetchResult.ok rows →
        refresh d force now ttl fetch =
          ({ cache := rows, lastRefresh := now }, true)) := by
  refine ⟨rfl, ?_, ?_⟩
  · intro hf hage
    unfold refresh
    rw [if_pos ⟨hf, hage⟩]
  · intro hcond rows hrows
    unfold refresh
    subst hrows
    rw [if_neg ?_]
    rcases hcond with hf | hage
    · subst hf
      rintro ⟨h, -⟩
      cases h
    · rintro ⟨-, h⟩
      omega

/-- Witness for C6: a fresh snapshot makes an unforced refresh a no-op, and
a forced refresh replaces the snapshot wholesale. -/
theorem refresh_ttl_spec_witness :
    DEFAULT_TTL = 300 ∧
    refresh { cache := [("acme", coW)], lastRefresh := 100 } false 200 300
      (FetchResult.ok []) = ({ cache := [("acme", coW)], lastRefresh := 100 }, false) ∧
    refresh { cache := [], lastRefresh := 100 } true 200 300
      (FetchResult.ok [("acme", coW)]) =
      ({ cache := [("acme", coW)], lastRefresh := 200 }, true) :=
  ⟨rfl,
   (refresh_ttl_spec { cache := [("acme", coW)], lastRefresh := 100 } false 200 300
      (FetchResult.ok [])).2.1 rfl (by decide),
   (refresh_ttl_spec { cache := [], lastRefresh := 100 } true 200 300
      (FetchResult.ok [("acme", coW)])).2.2 (Or.inl rfl) [("acme", coW)] rfl⟩

/-- C7 (confirmed, against the spec-modelled send_email body): the
expiry-warning line is appended to the outgoing email body exactly when the
number of calendar days until the plan expiry, d = expiry - today,
satisfies 0 <= d < 3. -/
theorem email_expiry_warning_iff (base : String) (d : Int) :
    sendEmailBody base d = base ++ expiryWarning ↔ (0 ≤ d ∧ d < 3) := by
  unfold sendEmailBody
  by_cases h : 0 ≤ d ∧ d < 3
  · rw [if_pos h]
    exact ⟨fun _ => h, fun _ => rfl⟩
  · rw [if_neg h]
    constructor
    · intro he
      exfalso
      have hlen := congrArg String.length he
      rw [String.length_append] at hlen
      have hw : 0 < expiryWarning.length := by decide
      omega
    · intro hc
      exact absurd hc h

/-- Concrete digest function for the webhook witness. -/
def hmW : String → String → String := fun k m => k ++ "|" ++ m

/-- Concrete signed request produced at the witness input. -/
def rW : WebhookReq :=
  { url := "https://hook.example/cb",
    body := jsonEnvelope "Acme" [("name", "Bob")],
    timestamp := "1700",
    signature := hmW "sec" ("1700" ++ jsonEnvelope "Acme" [("name", "Bob")]) }

/-- C8 (confirmed): every signed webhook request produced by send_webhook
satisfies the verifier's round-trip — recomputing the digest over the sent
X-Timestamp value concatenated with the exact sent body, keyed by the
tenant's secret, reproduces the sent X-Signature value — and the body is
json.dumps of the envelope with event "lead.created", the tenant's name
and the accepted lead fields, the timestamp the decimal Unix seconds used
in the signature (server.py lines 170-191, invoked by submit lines
289-294).  `hm` abstracts hex(HMAC-SHA256): the property is an identity of
the signer's and verifier's inputs, so it holds for every digest function,
HMAC-SHA256 included. -/
theorem webhook_signature_roundtrip (hm : String → String → String)
    (url secret company : String) (lead : List (String × String)) (now : Nat)
    (r : WebhookReq)
    (h : sendWebhook hm url secret company lead now = some r) :
    hm secret (r.timestamp ++ r.body) = r.signature ∧
    r.body = jsonEnvelope company lead ∧
    r.timestamp = toString now ∧ r.url = url := by
  by_cases hu : url = ""
  · simp only [sendWebhook, if_pos hu] at h
    cases h
  · simp only [sendWebhook, if_neg hu] at h
    have hr := Option.some.inj h
    subst hr
    exact ⟨rfl, rfl, rfl, rfl⟩

/-- Witness for C8 at a concrete secret, lead map, tenant name and clock. -/
theorem webhook_signature_roundtrip_witness :
    hmW "sec" (rW.timestamp ++ rW.body) = rW.signature ∧
    rW.body = jsonEnvelope "Acme" [("name", "Bob")] ∧
    rW.timestamp = toString 1700 ∧ rW.url = "https://hook.example/cb" :=
  webhook_signature_roundtrip hmW "https://hook.example/cb" "sec" "Acme"
    [("name", "Bob")] 1700 rW (by decide)

/-- leChars is total: of two character lists one is less-or-equal the other. -/
theorem leChars_total (a b : List Char) :
    leChars a b = true ∨ leChars b a = true := by
  induction a generalizing b with
  | nil => exact Or.inl rfl
  | cons x xs ih =>
    cases b with
    | nil => exact Or.inr rfl
    | cons y ys =>
      by_cases hxy : x.toNat < y.toNat
      · left
        simp [leChars, hxy]
      · by_cases hyx : y.toNat < x.toNat
        · right
          simp [leChars, hyx]
        · have hx : ¬ x.toNat < y.toNat := hxy
          rcases ih ys with h | h
          · left
            simp [leChars, hx, hyx, h]
          · right
            simp [leChars, hx, hyx, h]

/-- leChars is transitive. -/
theorem leChars_trans (a b c : List Char) (hab : leChars a b = true)
    (hbc : leChars b c = true) : leChars a c = true := by
  induction a generalizing b c with
  | nil => rfl
  | cons x xs ih =>
    cases b with
    | nil => simp [leChars] at hab
    | cons y ys =>
      cases c with
      | nil => simp [leChars] at hbc
      | cons z zs =>
        simp only [leChars] at hab hbc ⊢
        by_cases hxy : x.toNat < y.toNat
        · by_cases hyz : y.toNat < z.toNat
          · simp [show x.toNat < z.toNat by omega]
          · by_cases hzy : z.toNat < y.toNat
            · simp [hyz, hzy] at hbc
            · simp [show x.toNat < z.toNat by omega]
        · by_cases hyx : y.toNat < x.toNat
          · simp [hxy, hyx] at hab
          · by_cases hyz : y.toNat < z.toNat
            · simp [show x.toNat < z.toNat by omega]
            · by_cases hzy : z.toNat < y.toNat
              · simp [hyz, hzy] at hbc
              · have hxz : ¬ x.toNat < z.toNat := by omega
                have hzx : ¬ z.toNat < x.toNat := by omega
                simp only [hxy, hyx, if_neg, ite_false] at hab
                simp only [hyz, hzy, if_neg, ite_false] at hbc
                simp [hxz, hzx, ih ys zs hab hbc]

/-- strLe is total. -/
theorem strLe_total (a b : String) : strLe a b = true ∨ strLe b a = true :=
  leChars_total a.data b.data

/-- strLe is transitive. -/
theorem strLe_trans (a b c : String) (hab : strLe a b = true)
    (hbc : strLe b c = true) : strLe a c = true :=
  leChars_trans a.data b.data c.data hab hbc

/-- Inserting permutes: insertSorted x l is x :: l up to order. -/
theorem insertSorted_perm (x : String) (l : List String) :
    (insertSorted x l).Perm (x :: l) := by
  induction l with
  | nil => exact List.Perm.refl _
  | cons y ys ih =>
    unfold insertSorted
    by_cases h : strLe x y = true
    · rw [if_pos h]
    · rw [if_neg h]
      exact (List.Perm.cons y ih).trans (List.Perm.swap x y ys)

/-- Inserting preserves ascending order. -/
theorem insertSorted_pairwise (x : String) (l : List String)
    (hl : l.Pairwise (fun a b => strLe a b = true)) :
    (insertSorted x l).Pairwise (fun a b => strLe a b = true) := by
  induction l with
  | nil => simp [insertSorted]
  | cons y ys ih =>
    rw [List.pairwise_cons] at hl
    obtain ⟨hy, hys⟩ := hl
    unfold insertSorted
    by_cases h : strLe x y = true
    · rw [if_pos h]
      rw [List.pairwise_cons]
      constructor
      · intro z hz
        rcases List.mem_cons.mp hz with hz | hz
        · subst hz; exact h
        · exact strLe_trans x y z h (hy z hz)
      · rw [List.pairwise_cons]
        exact ⟨hy, hys⟩
    · rw [if_neg h]
      have hyx : strLe y x = true := by
        rcases strLe_total x y with ht | ht
        · exact absurd ht h
        · exact ht
      rw [List.pairwise_cons]
      constructor
      · intro z hz
        have hz2 := (insertSorted_perm x ys).mem_iff.mp hz
        rcases List.mem_cons.mp hz2 with hz3 | hz3
        · subst hz3; exact hyx
        · exact hy z hz3
      · exact ih hys

/-- sortStrings permutes its input. -/
theorem sortStrings_perm (l : List String) : (sortStrings l).Perm l := by
  induction l with
  | nil => exact List.Perm.refl _
  | cons x xs ih =>
    exact (insertSorted_perm x (sortStrings xs)).trans (List.Perm.cons x ih)

/-- sortStrings yields an ascending list. -/
theorem sortStrings_pairwise (l : List String) :
    (sortStrings l).Pairwise (fun a b => strLe a b = true) := by
  induction l with
  | nil => simp [sortStrings]
  | cons x xs ih => exact insertSorted_pairwise x (sortStrings xs) ih

/-- Membership in the sorted key union: exactly the keys occurring in some
fetched lead row. -/
theorem mem_sortStrings_keysUnion (rows : List LeadRow) (k : String) :
    k ∈ sortStrings (keysUnion rows) ↔
      ∃ r ∈ rows, k ∈ r.fields.map Prod.fst := by
  rw [(sortStrings_perm (keysUnion rows)).mem_iff]
  unfold keysUnion
  rw [List.mem_dedup, List.mem_flatMap]

/-- A key that no pair of the stored field map carries looks up to "". -/
theorem lookupField_not_mem (fs : List (String × String)) (k : String)
    (h : k ∉ fs.map Prod.fst) : lookupField fs k = "" := by
  induction fs with
  | nil => rfl
  | cons p ps ih =>
    have hk : k ≠ p.1 := by
      intro he
      exact h (by simp [he])
    have hps : k ∉ ps.map Prod.fst := by
      intro hm
      exact h (by simp [hm])
    unfold lookupField List.lookup
    have : (k == p.1) = false := by
      simp [hk]
    cases p with
    | mk a b =>
      simp only at hk this
      simp only [List.lookup, this]
      exact ih hps

/-- For Forall₂: appending one related pair on the right. -/
theorem forall₂_append_single {α β : Type} {R : α → β → Prop}
    {l₁ : List α} {l₂ : List β} (h : List.Forall₂ R l₁ l₂) {a : α} {b : β}
    (hab : R a b) : List.Forall₂ R (l₁ ++ [a]) (l₂ ++ [b]) := by
  induction h with
  | nil => exact List.Forall₂.cons hab List.Forall₂.nil
  | cons hr _ ih => exact List.Forall₂.cons hr ih

/-- deletesOf distributes over append. -/
theorem deletesOf_append (a b : List Ev) :
    deletesOf (a ++ b) = deletesOf a ++ deletesOf b :=
  List.filterMap_append a b _

/-- The email block of a step contributes no delete event. -/
theorem deletesOf_emailBlock (P : Prop) [Decidable P] (cid : Nat)
    (r : String) (ok : Bool) :
    deletesOf (if P then [Ev.email cid r ok] else []) = [] := by
  by_cases h : P
  · rw [if_pos h]; rfl
  · rw [if_neg h]; rfl

/-- deletesOf of a single commit event. -/
theorem deletesOf_delete (cid : Nat) : deletesOf [Ev.delete cid] = [cid] := rfl

/-- A tenant with no lead today is skipped entirely. -/
theorem batchStep_skip (orderOf : List LeadRow → List String)
    (eo dk : Nat → Bool) (today : Int) (c : Company) (s : BatchState)
    (h : tenantRows s.leads c.id today = []) :
    batchStep orderOf eo dk today c s = s := by
  simp [batchStep, h]

/-- A tenant with leads whose DELETE succeeds: export appended, email block
emitted, rows removed, delete committed. -/
theorem batchStep_process (orderOf : List LeadRow → List String)
    (eo dk : Nat → Bool) (today : Int) (c : Company) (s : BatchState)
    (h : tenantRows s.leads c.id today ≠ []) (hd : dk c.id = true) :
    batchStep orderOf eo dk today c s =
      { leads := removeTenantRows s.leads c.id today,
        exports := s.exports ++
          [(c.id, exportFor (orderOf (tenantRows s.leads c.id today))
            (tenantRows s.leads c.id today))],
        events := s.events ++
          (if c.plan = "email" ∨ c.plan = "all" then
            [Ev.email c.id c.email (eo c.id)] else []) ++ [Ev.delete c.id],
        aborted := false } := by
  simp [batchStep, h, hd]

/-- A tenant with leads whose DELETE raises: export and email block already
happened, rows stay, the loop aborts. -/
theorem batchStep_fail (orderOf : List LeadRow → List String)
    (eo dk : Nat → Bool) (today : Int) (c : Company) (s : BatchState)
    (h : tenantRows s.leads c.id today ≠ []) (hd : dk c.id = false) :
    batchStep orderOf eo dk today c s =
      { leads := s.leads,
        exports := s.exports ++
          [(c.id, exportFor (orderOf (tenantRows s.leads c.id today))
            (tenantRows s.leads c.id today))],
        events := s.events ++
          (if c.plan = "email" ∨ c.plan = "all" then
            [Ev.email c.id c.email (eo c.id)] else []),
        aborted := true } := by
  simp [batchStep, h, hd]

/-- Loop unfolding on a non-empty company list. -/
theorem batchLoop_cons (orderOf : List LeadRow → List String)
    (eo dk : Nat → Bool) (today : Int) (c : Company) (cs : List Company)
    (s : BatchState) :
    batchLoop orderOf eo dk today (c :: cs) s =
      if (batchStep orderOf eo dk today c s).aborted then
        batchStep orderOf eo dk today c s
      else batchLoop orderOf eo dk today cs (batchStep orderOf eo dk today c s) :=
  rfl

/-- Every event of the email block concerns the stepped tenant. -/
theorem mem_emailBlock (P : Prop) [Decidable P] (cid : Nat) (r : String)
    (ok : Bool) (e : Ev)
    (h : e ∈ (if P then [Ev.email cid r ok] else [])) : evCid e = cid := by
  by_cases hp : P
  · rw [if_pos hp] at h
    rw [List.mem_singleton] at h
    subst h
    rfl
  · rw [if_neg hp] at h
    cases h

/-- Every event a step adds concerns the stepped tenant. -/
theorem batchStep_events_cases (orderOf : List LeadRow → List String)
    (eo dk : Nat → Bool) (today : Int) (c : Company) (s : BatchState) :
    ∀ e ∈ (batchStep orderOf eo dk today c s).events,
      e ∈ s.events ∨ evCid e = c.id := by
  intro e he
  by_cases h : tenantRows s.leads c.id today = []
  · rw [batchStep_skip orderOf eo dk today c s h] at he
    exact Or.inl he
  · cases hd : dk c.id with
    | true =>
      rw [batchStep_process orderOf eo dk today c s h hd] at he
      rcases List.mem_append.mp he with he2 | he2
      · rcases List.mem_append.mp he2 with he3 | he3
        · exact Or.inl he3
        · exact Or.inr (mem_emailBlock _ c.id c.email (eo c.id) e he3)
      · rw [List.mem_singleton] at he2
        subst he2
        exact Or.inr rfl
    | false =>
      rw [batchStep_fail orderOf eo dk today c s h hd] at he
      rcases List.mem_append.mp he with he2 | he2
      · exact Or.inl he2
      · exact Or.inr (mem_emailBlock _ c.id c.email (eo c.id) e he2)

/-- The email outcome influences nothing a step does except the recorded
success bit: rows, abort flag and committed deletes agree. -/
theorem batchStep_email_inv (orderOf : List LeadRow → List String)
    (eo₁ eo₂ dk : Nat → Bool) (today : Int) (c : Company) (s₁ s₂ : BatchState)
    (hl : s₁.leads = s₂.leads) (ha : s₁.aborted = s₂.aborted)
    (hd : deletesOf s₁.events = deletesOf s₂.events) :
    (batchStep orderOf eo₁ dk today c s₁).leads =
      (batchStep orderOf eo₂ dk today c s₂).leads ∧
    (batchStep orderOf eo₁ dk today c s₁).aborted =
      (batchStep orderOf eo₂ dk today c s₂).aborted ∧
    deletesOf (batchStep orderOf eo₁ dk today c s₁).events =
      deletesOf (batchStep orderOf eo₂ dk today c s₂).events := by
  by_cases h : tenantRows s₁.leads c.id today = []
  · have h2 : tenantRows s₂.leads c.id today = [] := by rw [← hl]; exact h
    rw [batchStep_skip orderOf eo₁ dk today c s₁ h,
      batchStep_skip orderOf eo₂ dk today c s₂ h2]
    exact ⟨hl, ha, hd⟩
  · have h2 : tenantRows s₂.leads c.id today ≠ [] := by rw [← hl]; exact h
    cases hdk : dk c.id with
    | true =>
      rw [batchStep_process orderOf eo₁ dk today c s₁ h hdk,
        batchStep_process orderOf eo₂ dk today c s₂ h2 hdk]
      refine ⟨by rw [hl], rfl, ?_⟩
      simp only [deletesOf_append, deletesOf_emailBlock, deletesOf_delete, hd]
    | false =>
      rw [batchStep_fail orderOf eo₁ dk today c s₁ h hdk,
        batchStep_fail orderOf eo₂ dk today c s₂ h2 hdk]
      refine ⟨hl, rfl, ?_⟩
      simp only [deletesOf_append, deletesOf_emailBlock, hd]

/-- Loop version of the email-outcome invariance. -/
theorem batchLoop_email_inv (orderOf : List LeadRow → List String)
    (eo₁ eo₂ dk : Nat → Bool) (today : Int) :
    ∀ (cs : List Company) (s₁ s₂ : BatchState),
      s₁.leads = s₂.leads → s₁.aborted = s₂.aborted →
      deletesOf s₁.events = deletesOf s₂.events →
      (batchLoop orderOf eo₁ dk today cs s₁).leads =
        (batchLoop orderOf eo₂ dk today cs s₂).leads ∧
      (batchLoop orderOf eo₁ dk today cs s₁).aborted =
        (batchLoop orderOf eo₂ dk today cs s₂).aborted ∧
      deletesOf (batchLoop orderOf eo₁ dk today cs s₁).events =
        deletesOf (batchLoop orderOf eo₂ dk today cs s₂).events := by
  intro cs
  induction cs with
  | nil => exact fun s₁ s₂ hl ha hd => ⟨hl, ha, hd⟩
  | cons c cs ih =>
    intro s₁ s₂ hl ha hd
    obtain ⟨hl2, ha2, hd2⟩ :=
      batchStep_email_inv orderOf eo₁ eo₂ dk today c s₁ s₂ hl ha hd
    rw [batchLoop_cons, batchLoop_cons]
    by_cases hab : (batchStep orderOf eo₁ dk today c s₁).aborted = true
    · rw [if_pos hab, if_pos (ha2 ▸ hab)]
      exact ⟨hl2, ha2, hd2⟩
    · rw [if_neg hab, if_neg (fun hh => hab (ha2 ▸ hh))]
      exact ih _ _ hl2 ha2 hd2

/-- The column-order parameter influences nothing a step does except the
export content: the two runs stay in lock step elsewhere, and each
produced export pair is the respective rendering of the same fetched
rows. -/
theorem batchStep_order_rel (o₁ o₂ : List LeadRow → List String)
    (eo dk : Nat → Bool) (today : Int) (c : Company) (s₁ s₂ : BatchState)
    (hl : s₁.leads = s₂.leads) (he : s₁.events = s₂.events)
    (ha : s₁.aborted = s₂.aborted)
    (hx : List.Forall₂ (fun p q => p.1 = q.1 ∧ ∃ rows, rows ≠ [] ∧
        p.2 = exportFor (o₁ rows) rows ∧ q.2 = exportFor (o₂ rows) rows)
      s₁.exports s₂.exports) :
    (batchStep o₁ eo dk today c s₁).leads =
      (batchStep o₂ eo dk today c s₂).leads ∧
    (batchStep o₁ eo dk today c s₁).events =
      (batchStep o₂ eo dk today c s₂).events ∧
    (batchStep o₁ eo dk today c s₁).aborted =
      (batchStep o₂ eo dk today c s₂).aborted ∧
    List.Forall₂ (fun p q => p.1 = q.1 ∧ ∃ rows, rows ≠ [] ∧
        p.2 = exportFor (o₁ rows) rows ∧ q.2 = exportFor (o₂ rows) rows)
      (batchStep o₁ eo dk today c s₁).exports
      (batchStep o₂ eo dk today c s₂).exports := by
  by_cases h : tenantRows s₁.leads c.id today = []
  · have h2 : tenantRows s₂.leads c.id today = [] := by rw [← hl]; exact h
    rw [batchStep_skip o₁ eo dk today c s₁ h,
      batchStep_skip o₂ eo dk today c s₂ h2]
    exact ⟨hl, he, ha, hx⟩
  · have h2 : tenantRows s₂.leads c.id today ≠ [] := by rw [← hl]; exact h
    have hrel : (fun p q => p.1 = q.1 ∧ ∃ rows, rows ≠ [] ∧
        p.2 = exportFor (o₁ rows) rows ∧ q.2 = exportFor (o₂ rows) rows)
        (c.id, exportFor (o₁ (tenantRows s₁.leads c.id today))
          (tenantRows s₁.leads c.id today))
        (c.id, exportFor (o₂ (tenantRows s₂.leads c.id today))
          (tenantRows s₂.leads c.id today)) := by
      refine ⟨rfl, tenantRows s₁.leads c.id today, h, rfl, ?_⟩
      rw [hl]
    cases hdk : dk c.id with
    | true =>
      rw [batchStep_process o₁ eo dk today c s₁ h hdk,
        batchStep_process o₂ eo dk today c s₂ h2 hdk]
      exact ⟨by rw [hl], by rw [he], rfl, forall₂_append_single hx hrel⟩
    | false =>
      rw [batchStep_fail o₁ eo dk today c s₁ h hdk,
        batchStep_fail o₂ eo dk today c s₂ h2 hdk]
      exact ⟨hl, by rw [he], rfl, forall₂_append_single hx hrel⟩

/-- Loop version of the column-order invariance. -/
theorem batchLoop_order_rel (o₁ o₂ : List LeadRow → List String)
    (eo dk : Nat → Bool) (today : Int) :
    ∀ (cs : List Company) (s₁ s₂ : BatchState),
      s₁.leads = s₂.leads → s₁.events = s₂.events → s₁.aborted = s₂.aborted →
      List.Forall₂ (fun p q => p.1 = q.1 ∧ ∃ rows, rows ≠ [] ∧
          p.2 = exportFor (o₁ rows) rows ∧ q.2 = exportFor (o₂ rows) rows)
        s₁.exports s₂.exports →
      (batchLoop o₁ eo dk today cs s₁).leads =
        (batchLoop o₂ eo dk today cs s₂).leads ∧
      (batchLoop o₁ eo dk today cs s₁).events =
        (batchLoop o₂ eo dk today cs s₂).events ∧
      (batchLoop o₁ eo dk today cs s₁).aborted =
        (batchLoop o₂ eo dk today cs s₂).aborted ∧
      List.Forall₂ (fun p q => p.1 = q.1 ∧ ∃ rows, rows ≠ [] ∧
          p.2 = exportFor (o₁ rows) rows ∧ q.2 = exportFor (o₂ rows) rows)
        (batchLoop o₁ eo dk today cs s₁).exports
        (batchLoop o₂ eo dk today cs s₂).exports := by
  intro cs
  induction cs with
  | nil => exact fun s₁ s₂ hl he ha hx => ⟨hl, he, ha, hx⟩
  | cons c cs ih =>
    intro s₁ s₂ hl he ha hx
    obtain ⟨hl2, he2, ha2, hx2⟩ :=
      batchStep_order_rel o₁ o₂ eo dk today c s₁ s₂ hl he ha hx
    rw [batchLoop_cons, batchLoop_cons]
    by_cases hab : (batchStep o₁ eo dk today c s₁).aborted = true
    · rw [if_pos hab, if_pos (ha2 ▸ hab)]
      exact ⟨hl2, he2, ha2, hx2⟩
    · rw [if_neg hab, if_neg (fun hh => hab (ha2 ▸ hh))]
      exact ih _ _ hl2 he2 ha2 hx2

/-- C3 counterexample: two active tenants, each with one lead dated today;
tenant 1's DELETE raises.  The run ends at tenant 1: no event at all is
recorded (tenant 1 has no email plan, its delete did not commit), tenant
2's email is never attempted and its rows are never deleted although it
has leads today — the failure was not isolated to tenant 1, contradicting
the claim (server.py lines 196-249: the try wraps the whole loop, so the
except at 244-246 ends the run). -/
theorem daily_report_failure_not_isolated_cex :
    (dailyReport (fun l => l) (fun _ => true) (fun cid => cid == 2) dbF 5).aborted
      = true ∧
    (dailyReport (fun l => l) (fun _ => true) (fun cid => cid == 2) dbF 5).events
      = [] ∧
    (dailyReport (fun l => l) (fun _ => true) (fun cid => cid == 2) dbF 5).leads
      = dbF.leads ∧
    coF2 ∈ activeCompanies dbF 5 ∧ coF2.plan = "email" ∧
    tenantRows dbF.leads coF2.id 5 ≠ [] := by decide

/-- C3 (corrected): a failure raised while processing one tenant ends the
whole run instead of being isolated — once a tenant's step aborts, the loop
result is exactly that tenant's partial state, and every recorded event
beyond the incoming state concerns that tenant only, so no remaining tenant
is exported, mailed or purged.  (daily_report catches the exception after
the loop and returns, server.py lines 244-246; run_daily_report has no
handler and propagates it, cron.py lines 19-61.) -/
theorem batch_abort_stops_run (orderOf : List LeadRow → List String)
    (emailOk deleteOk : Nat → Bool) (today : Int) (c : Company)
    (cs : List Company) (s : BatchState)
    (h : (batchStep orderOf emailOk deleteOk today c s).aborted = true) :
    batchLoop orderOf emailOk deleteOk today (c :: cs) s =
      batchStep orderOf emailOk deleteOk today c s ∧
    ∀ e ∈ (batchLoop orderOf emailOk deleteOk today (c :: cs) s).events,
      e ∈ s.events ∨ evCid e = c.id := by
  have h1 : batchLoop orderOf emailOk deleteOk today (c :: cs) s =
      batchStep orderOf emailOk deleteOk today c s := by
    rw [batchLoop_cons, if_pos h]
  refine ⟨h1, ?_⟩
  rw [h1]
  exact batchStep_events_cases orderOf emailOk deleteOk today c s

/-- Witness for C3's corrected statement: with tenant 1's DELETE raising,
the two-tenant loop collapses to tenant 1's partial state. -/
theorem batch_abort_stops_run_witness :
    (batchStep (fun rows => keysUnion rows) (fun _ => true) (fun _ => false)
        5 coF1 (initState dbF)).aborted = true ∧
    (batchLoop (fun rows => keysUnion rows) (fun _ => true) (fun _ => false)
        5 [coF1, coF2] (initState dbF) =
      batchStep (fun rows => keysUnion rows) (fun _ => true) (fun _ => false)
        5 coF1 (initState dbF) ∧
    ∀ e ∈ (batchLoop (fun rows => keysUnion rows) (fun _ => true)
        (fun _ => false) 5 [coF1, coF2] (initState dbF)).events,
      e ∈ (initState dbF).events ∨ evCid e = coF1.id) :=
  ⟨by decide,
   batch_abort_stops_run (fun rows => keysUnion rows) (fun _ => true)
     (fun _ => false) 5 coF1 [coF2] (initState dbF) (by decide)⟩

/-- C5 counterexample: in daily_report the header row is list(set) of the
key union plus created_at (server.py line 229); the set-iteration order is
unspecified, and under the legitimate enumeration that yields the union in
its stored order (here duplicate-free "y","x") the header is not the
sorted union — the claim's "sorted union" header is false for
daily_report. -/
theorem daily_report_header_unsorted_cex :
    (keysUnion (tenantRows dbE.leads 1 5)).Nodup ∧
    (dailyReport (fun l => l) (fun _ => true) (fun _ => true) dbE 5).exports =
      [(1, [["y", "x", "created_at"], ["1", "2", "t1"]])] ∧
    sortStrings (keysUnion (tenantRows dbE.leads 1 5)) = ["x", "y"] ∧
    [["y", "x", "created_at"], ["1", "2", "t1"]] ≠
      exportFor (sortStrings (keysUnion (tenantRows dbE.leads 1 5)))
        (tenantRows dbE.leads 1 5) := by decide

/-- C5 (corrected): run_daily_report's export (cron.py lines 40-46) has the
claimed shape — its column set S is ascending (by code points), duplicate
free, and contains exactly the field keys occurring across the tenant's
fetched leads; the header row is S plus a trailing created_at; there is one
data row per lead, each following the header's column order with "" for a
field the lead lacks.  daily_report's export (server.py lines 222-231) has
the same shape except that its column enumeration `so` is CPython's
unspecified set order, not the sorted one. -/
theorem cron_export_spec (so : List String → List String)
    (emailOk deleteOk : Nat → Bool) (today : Int) (c : Company)
    (s : BatchState) (hrows : tenantRows s.leads c.id today ≠ []) :
    (batchStep (fun rs => sortStrings (keysUnion rs)) emailOk deleteOk today
        c s).exports =
      s.exports ++ [(c.id,
        (sortStrings (keysUnion (tenantRows s.leads c.id today)) ++
            ["created_at"]) ::
          (tenantRows s.leads c.id today).map (fun r =>
            (sortStrings (keysUnion (tenantRows s.leads c.id today))).map
              (lookupField r.fields) ++ [r.createdAt]))] ∧
    (batchStep (fun rs => so (keysUnion rs)) emailOk deleteOk today
        c s).exports =
      s.exports ++ [(c.id,
        exportFor (so (keysUnion (tenantRows s.leads c.id today)))
          (tenantRows s.leads c.id today))] ∧
    (sortStrings (keysUnion (tenantRows s.leads c.id today))).Pairwise
      (fun a b => strLe a b = true) ∧
    (sortStrings (keysUnion (tenantRows s.leads c.id today))).Nodup ∧
    (∀ k, k ∈ sortStrings (keysUnion (tenantRows s.leads c.id today)) ↔
      ∃ r ∈ tenantRows s.leads c.id today, k ∈ r.fields.map Prod.fst) ∧
    (∀ r ∈ tenantRows s.leads c.id today, ∀ k,
      k ∉ r.fields.map Prod.fst → lookupField r.fields k = "") := by
  have hexp : ∀ (oF : List LeadRow → List String),
      (batchStep oF emailOk deleteOk today c s).exports =
        s.exports ++ [(c.id,
          exportFor (oF (tenantRows s.leads c.id today))
            (tenantRows s.leads c.id today))] := by
    intro oF
    cases hdk : deleteOk c.id with
    | true => rw [batchStep_process oF emailOk deleteOk today c s hrows hdk]
    | false => rw [batchStep_fail oF emailOk deleteOk today c s hrows hdk]
  refine ⟨?_, hexp _, sortStrings_pairwise _, ?_, ?_, ?_⟩
  · rw [hexp (fun rs => sortStrings (keysUnion rs))]
    rfl
  · exact ((sortStrings_perm (keysUnion (tenantRows s.leads c.id today))).nodup_iff).mpr
      (List.nodup_dedup _)
  · exact fun k => mem_sortStrings_keysUnion (tenantRows s.leads c.id today) k
  · exact fun r _ k hk => lookupField_not_mem r.fields k hk

/-- Witness for C5's corrected statement at a concrete tenant and lead.  -/
theorem cron_export_spec_witness :
    (batchStep (fun rs => sortStrings (keysUnion rs)) (fun _ => true)
        (fun _ => true) 5 coE (initState dbE)).exports =
      [(1, [["x", "y", "created_at"], ["2", "1", "t1"]])] ∧
    (sortStrings (keysUnion (tenantRows dbE.leads 1 5))).Pairwise
      (fun a b => strLe a b = true) := by
  have h := cron_export_spec (fun l => l) (fun _ => true) (fun _ => true) 5
    coE (initState dbE) (by decide)
  refine ⟨?_, ?_⟩
  · rw [h.1]
    decide
  · exact h.2.2.1

/-- C9 (confirmed): per tenant, the email (when the plan includes it) is
attempted before the delete is committed — a successful step's trace is
exactly the email attempt followed by the delete commit, whatever the
delivery outcome was — and across the whole of daily_report and
run_daily_report the email outcomes influence neither the remaining rows
nor the set and order of committed deletes (send_email swallows delivery
failures: server.py lines 149-161, spec section 4.2 for the cron variant;
server.py lines 233-241 and cron.py lines 48-57 order mail before
delete-commit). -/
theorem batch_delete_after_email (orderOf : List LeadRow → List String)
    (so : List String → List String) (eo eo₁ eo₂ dk : Nat → Bool)
    (db : DB) (today : Int) (c : Company) (s : BatchState) :
    (tenantRows s.leads c.id today ≠ [] →
      (c.plan = "email" ∨ c.plan = "all") → dk c.id = true →
      (batchStep orderOf eo dk today c s).events =
        s.events ++ [Ev.email c.id c.email (eo c.id), Ev.delete c.id]) ∧
    (dailyReport so eo₁ dk db today).leads =
      (dailyReport so eo₂ dk db today).leads ∧
    deletesOf (dailyReport so eo₁ dk db today).events =
      deletesOf (dailyReport so eo₂ dk db today).events ∧
    (runDailyReport eo₁ dk db today).leads =
      (runDailyReport eo₂ dk db today).leads ∧
    deletesOf (runDailyReport eo₁ dk db today).events =
      deletesOf (runDailyReport eo₂ dk db today).events := by
  refine ⟨?_, ?_, ?_, ?_, ?_⟩
  · intro hrows hplan hdk
    rw [batchStep_process orderOf eo dk today c s hrows hdk, if_pos hplan]
    simp
  · exact (batchLoop_email_inv (fun rows => so (keysUnion rows)) eo₁ eo₂ dk
      today (activeCompanies db today) (initState db) (initState db)
      rfl rfl rfl).1
  · exact (batchLoop_email_inv (fun rows => so (keysUnion rows)) eo₁ eo₂ dk
      today (activeCompanies db today) (initState db) (initState db)
      rfl rfl rfl).2.2
  · exact (batchLoop_email_inv (fun rows => sortStrings (keysUnion rows))
      eo₁ eo₂ dk today (activeCompanies db today) (initState db)
      (initState db) rfl rfl rfl).1
  · exact (batchLoop_email_inv (fun rows => sortStrings (keysUnion rows))
      eo₁ eo₂ dk today (activeCompanies db today) (initState db)
      (initState db) rfl rfl rfl).2.2

/-- Witness for C9: tenant 2 (email plan, one lead today) is mailed first
and purged second; the delete set of the whole run is the same whether
every delivery succeeds or every delivery fails. -/
theorem batch_delete_after_email_witness :
    (batchStep (fun rows => keysUnion rows) (fun _ => false) (fun _ => true)
        5 coF2 (initState dbF)).events =
      [Ev.email coF2.id coF2.email false, Ev.delete coF2.id] ∧
    (dailyReport (fun l => l) (fun _ => true) (fun _ => true) dbF 5).leads =
      (dailyReport (fun l => l) (fun _ => false) (fun _ => true) dbF 5).leads ∧
    deletesOf (dailyReport (fun l => l) (fun _ => true) (fun _ => true)
        dbF 5).events =
      deletesOf (dailyReport (fun l => l) (fun _ => false) (fun _ => true)
        dbF 5).events := by
  have h := batch_delete_after_email (fun rows => keysUnion rows)
    (fun l => l) (fun _ => false) (fun _ => true) (fun _ => false)
    (fun _ => true) dbF 5 coF2 (initState dbF)
  exact ⟨h.1 (by decide) (Or.inl rfl) rfl, h.2.1, h.2.2.1⟩

/-- C10 counterexample: on a database with one tenant holding a single lead
with keys "y" then "x", daily_report (under the legitimate set order that
enumerates the union as stored) and run_daily_report produce different
export content for the tenant — the column orders differ. -/
theorem daily_vs_cron_export_cex :
    (dailyReport (fun l => l) (fun _ => true) (fun _ => true) dbE 5).exports ≠
      (runDailyReport (fun _ => true) (fun _ => true) dbE 5).exports := by
  decide

/-- C10 (corrected): on every database state the two batch implementations
select the same tenants, stay in lock step on events (the same email
attempts for the same recipients, the same delete commits in the same
order), leave the same rows behind and abort under the same failures; their
per-tenant exports are renderings of the same fetched rows — daily_report
under the unspecified set order `so`, run_daily_report under the sorted
order — but not the same content in general, as the counterexample shows. -/
theorem daily_vs_cron_report (so : List String → List String)
    (eo dk : Nat → Bool) (db : DB) (today : Int) :
    (dailyReport so eo dk db today).leads =
      (runDailyReport eo dk db today).leads ∧
    (dailyReport so eo dk db today).events =
      (runDailyReport eo dk db today).events ∧
    (dailyReport so eo dk db today).aborted =
      (runDailyReport eo dk db today).aborted ∧
    List.Forall₂ (fun p q => p.1 = q.1 ∧ ∃ rows, rows ≠ [] ∧
        p.2 = exportFor (so (keysUnion rows)) rows ∧
        q.2 = exportFor (sortStrings (keysUnion rows)) rows)
      (dailyReport so eo dk db today).exports
      (runDailyReport eo dk db today).exports :=
  batchLoop_order_rel (fun rows => so (keysUnion rows))
    (fun rows => sortStrings (keysUnion rows)) eo dk today
    (activeCompanies db today) (initState db) (initState db)
    rfl rfl rfl List.Forall₂.nil

end MySqft
